import Mathlib

/-
Verification of the snapshot time-point selection component of the disco
repository (disco/analysis/feeder_analysis/timepoint_selection.py).

Shallow embedding conventions:
* Timestamps are integers counting seconds since the Unix epoch; the pandas
  DatetimeIndex built by create_loadshape_pmult_dataframe is represented as
  the list of such integers.  The daily window test of
  DataFrame.between_time uses the seconds-of-day component, Int.emod 86400.
* Series values live in PVal, a model of IEEE float values as used by the
  pandas columns: a rational number, positive or negative infinity, or nan.
  Column arithmetic (division producing infinities on zero denominators,
  nan propagation) follows IEEE semantics on these values.
* Series.idxmax / Series.idxmin are modelled by argbestBy: nan entries are
  skipped and the first (earliest) index attaining the best value is
  returned; an empty or all-nan series yields none, which the selector
  surfaces as SelErr.valueError (in the code, the pandas ValueError).
* The embedding assumes every load shape used in one aggregation shares the
  simulation grid (same start, interval and point count), which is the
  AggregateProfile invariant stated by the spec; positional zipWith then
  coincides with the index-aligned pandas column addition.
* File output (dump_data with indent 2) is I/O; the embedding keeps the
  in-memory record passed to it: the ordered association list of criterion
  name to timestamp built in the timepoints frame, in insertion order.
-/

/-- PVal models an IEEE double as held in the pandas columns: nan, one of
the two infinities, or a finite value (modelled as a rational). -/
inductive PVal where
  | nan : PVal
  | negInf : PVal
  | fin (q : ℚ) : PVal
  | posInf : PVal
deriving DecidableEq, Repr

/-- IEEE addition on PVal: nan propagates, opposite infinities give nan. -/
def pAdd : PVal → PVal → PVal
  | PVal.nan, _ => PVal.nan
  | _, PVal.nan => PVal.nan
  | PVal.posInf, PVal.negInf => PVal.nan
  | PVal.negInf, PVal.posInf => PVal.nan
  | PVal.posInf, _ => PVal.posInf
  | _, PVal.posInf => PVal.posInf
  | PVal.negInf, _ => PVal.negInf
  | _, PVal.negInf => PVal.negInf
  | PVal.fin a, PVal.fin b => PVal.fin (a + b)

/-- IEEE negation on PVal. -/
def pNeg : PVal → PVal
  | PVal.nan => PVal.nan
  | PVal.posInf => PVal.negInf
  | PVal.negInf => PVal.posInf
  | PVal.fin a => PVal.fin (-a)

/-- IEEE subtraction on PVal, used for the PV minus Load column. -/
def pSub (a b : PVal) : PVal := pAdd a (pNeg b)

/-- IEEE division on PVal, used for the PV to Load Ratio column: a nonzero
finite value divided by zero gives a signed infinity, zero divided by zero
gives nan, nan propagates. -/
def pDiv : PVal → PVal → PVal
  | PVal.nan, _ => PVal.nan
  | _, PVal.nan => PVal.nan
  | PVal.posInf, PVal.posInf => PVal.nan
  | PVal.posInf, PVal.negInf => PVal.nan
  | PVal.negInf, PVal.posInf => PVal.nan
  | PVal.negInf, PVal.negInf => PVal.nan
  | PVal.posInf, PVal.fin b => if 0 ≤ b then PVal.posInf else PVal.negInf
  | PVal.negInf, PVal.fin b => if 0 ≤ b then PVal.negInf else PVal.posInf
  | PVal.fin _, PVal.posInf => PVal.fin 0
  | PVal.fin _, PVal.negInf => PVal.fin 0
  | PVal.fin a, PVal.fin b =>
      if b ≠ 0 then PVal.fin (a / b)
      else if 0 < a then PVal.posInf
      else if a < 0 then PVal.negInf
      else PVal.nan

/-- Strict IEEE comparison on PVal: comparisons against nan are false,
negInf is below every finite value, posInf above. -/
def pLt : PVal → PVal → Bool
  | PVal.nan, _ => false
  | _, PVal.nan => false
  | PVal.negInf, PVal.negInf => false
  | PVal.negInf, _ => true
  | PVal.posInf, _ => false
  | PVal.fin _, PVal.negInf => false
  | PVal.fin a, PVal.fin b => decide (a < b)
  | PVal.fin _, PVal.posInf => true

/-- Reversed strict comparison, used to model idxmin. -/
def pGt (a b : PVal) : Bool := pLt b a

/-- Reusable first-best scan modelling pandas Series.idxmax and idxmin:
lt is the strict order in which later entries must strictly beat the
incumbent to replace it, nan entries are skipped, and an empty or all-nan
list yields none.  Returns the entry (index and value), earliest on ties. -/
def argbestBy (lt : PVal → PVal → Bool) : List (Int × PVal) → Option (Int × PVal)
  | [] => none
  | p :: rest =>
      let r := argbestBy lt rest
      if p.2 = PVal.nan then r
      else
        match r with
        | none => some p
        | some b => if lt p.2 b.2 then some b else some p

/-- Errors the selection script can raise: the assert on an unsupported
mode (AssertionError), the pandas ValueError from idxmax or idxmin on an
empty series, and the frame KeyError on a missing row label. -/
inductive SelErr where
  | assertionError (msg : String) : SelErr
  | valueError : SelErr
  | keyError : SelErr
deriving DecidableEq, Repr

/-- SnapshotTimePointSelectionMode, the closed mode enumeration of the
source (member NONE is rendered noneMode). -/
inductive Mode where
  | max_pv_load_ratio : Mode
  | max_load : Mode
  | daytime_min_load : Mode
  | pv_minus_load : Mode
  | noneMode : Mode
deriving DecidableEq, Repr

/-- Python str rendering of a mode member, as interpolated into the assert
message of the source. -/
def Mode.pyName : Mode → String
  | Mode.max_pv_load_ratio => "SnapshotTimePointSelectionMode.MAX_PV_LOAD_RATIO"
  | Mode.max_load => "SnapshotTimePointSelectionMode.MAX_LOAD"
  | Mode.daytime_min_load => "SnapshotTimePointSelectionMode.DAYTIME_MIN_LOAD"
  | Mode.pv_minus_load => "SnapshotTimePointSelectionMode.MAX_PV_MINUS_LOAD"
  | Mode.noneMode => "SnapshotTimePointSelectionMode.NONE"

/-- LoadShape data held by the external engine for one shape name: the
multiplier array (PMult) and the sampling interval in seconds (SInterval).
The point count Npts equals the length of the multiplier array. -/
structure LoadShape where
  pmult : List ℚ
  sinterval : Int
deriving DecidableEq

/-- One Load or PVsystem device: rated power (kW or Pmpp) and the name of
its yearly profile shape. -/
structure Device where
  rating : ℚ
  shapeName : String
deriving DecidableEq

/-- Read-only snapshot of the circuit topology plus settings: the
loadshape start time (seconds since epoch), the device name lists in
engine order, and the per-shape data lookup. -/
structure Circuit where
  startTime : Int
  pvSystems : List Device
  loads : List Device
  shapes : String → LoadShape

/-- Embedding of create_loadshape_pmult_dataframe: the shape data of the
given name as a series indexed by startTime plus multiples of the shape
interval, one point per multiplier entry. -/
def create_loadshape_pmult (c : Circuit) (name : String) : List (Int × ℚ) :=
  (c.shapes name).pmult.enum.map
    (fun p => (c.startTime + p.1 * (c.shapes name).sinterval, p.2))

/-- One row of the aggregate_profiles frame: timestamp, Load column value
and PV column value. -/
structure Row where
  ts : Int
  load : PVal
  pv : PVal
deriving DecidableEq, Repr

/-- Association-list lookup, modelling dict access keyed by name. -/
def alookup {α : Type} : List (String × α) → String → Option α
  | [], _ => none
  | p :: rest, k => if p.1 = k then some p.2 else alookup rest k

/-- Shape-cache access of the aggregation loops: look the name up in the
cache and otherwise materialize the shape and record it.  Returns the
updated cache and the materialized series. -/
def cacheGet (cache : List (String × List (Int × ℚ))) (c : Circuit)
    (name : String) : List (String × List (Int × ℚ)) × List (Int × ℚ) :=
  match alookup cache name with
  | some s => (cache, s)
  | none => ((name, create_loadshape_pmult c name) :: cache,
             create_loadshape_pmult c name)

/-- One PV accumulation step (lines 89 to 93 of the source): on an empty
frame the PV column is assigned the scaled series and the frame-wide
replace of nan by zero sets the Load column to zero; otherwise the scaled
series is added to the PV column. -/
def pvAccum (frame : List Row) (contrib : List (Int × ℚ)) : List Row :=
  if frame.isEmpty then
    contrib.map (fun p => { ts := p.1, load := PVal.fin 0, pv := PVal.fin p.2 })
  else
    frame.zipWith (fun r p => { r with pv := pAdd r.pv (PVal.fin p.2) }) contrib

/-- One Load accumulation step (lines 106 to 109 of the source): on an
empty frame the Load column is assigned the scaled series, which reindexes
the untouched PV column to nan; otherwise the scaled series is added to
the Load column. -/
def loadAccum (frame : List Row) (contrib : List (Int × ℚ)) : List Row :=
  if frame.isEmpty then
    contrib.map (fun p => { ts := p.1, load := PVal.fin p.2, pv := PVal.nan })
  else
    frame.zipWith (fun r p => { r with load := pAdd r.load (PVal.fin p.2) }) contrib

/-- PV aggregation loop of the source with its pv_shapes cache: fold over
the PV devices, materializing each shape through the cache, scaling by
Pmpp and accumulating into the frame. -/
def pvPass (c : Circuit) : List Row :=
  (c.pvSystems.foldl
    (fun st d =>
      let r := cacheGet st.2 c d.shapeName
      (pvAccum st.1 (r.2.map (fun q => (q.1, q.2 * d.rating))), r.1))
    ([], [])).1

/-- Load aggregation loop of the source with its load_shapes cache,
starting from the frame left by the PV pass. -/
def loadPass (c : Circuit) (frame : List Row) : List Row :=
  (c.loads.foldl
    (fun st d =>
      let r := cacheGet st.2 c d.shapeName
      (loadAccum st.1 (r.2.map (fun q => (q.1, q.2 * d.rating))), r.1))
    (frame, [])).1

/-- Full aggregate_profiles construction: the PV pass followed by the Load
pass. -/
def aggregate (c : Circuit) : List Row :=
  loadPass c (pvPass c)

/-- Load column of the frame. -/
def loadCol (f : List Row) : List (Int × PVal) :=
  f.map (fun r => (r.ts, r.load))

/-- PV column of the frame. -/
def pvCol (f : List Row) : List (Int × PVal) :=
  f.map (fun r => (r.ts, r.pv))

/-- Derived column PV to Load Ratio (line 112 of the source). -/
def ratioCol (f : List Row) : List (Int × PVal) :=
  f.map (fun r => (r.ts, pDiv r.pv r.load))

/-- Derived column PV minus Load (line 113 of the source). -/
def minusCol (f : List Row) : List (Int × PVal) :=
  f.map (fun r => (r.ts, pSub r.pv r.load))

/-- Daily window test of between_time with arguments 8:00 and 17:00, both
boundaries inclusive: seconds-of-day between 28800 and 61200. -/
def inWindow (ts : Int) : Bool :=
  decide (28800 ≤ ts.emod 86400) && decide (ts.emod 86400 ≤ 61200)

/-- Restriction of a column to the daily window, modelling between_time
composed with column selection. -/
def betweenTime (col : List (Int × PVal)) : List (Int × PVal) :=
  col.filter (fun p => inWindow p.1)

/-- Series.idxmax as used by the selector: the earliest index attaining
the maximum, failing on an empty (or all-nan) series. -/
def idxmaxE (col : List (Int × PVal)) : Except SelErr Int :=
  match argbestBy pLt col with
  | some b => Except.ok b.1
  | none => Except.error SelErr.valueError

/-- Series.idxmin as used by the selector: the earliest index attaining
the minimum, failing on an empty (or all-nan) series. -/
def idxminE (col : List (Int × PVal)) : Except SelErr Int :=
  match argbestBy pGt col with
  | some b => Except.ok b.1
  | none => Except.error SelErr.valueError

/-- Mode resolution of lines 62 to 67 of the source: with no PV systems a
mode other than max_load is overridden to max_load. -/
def resolveMode (pvPresent : Bool) (mode : Mode) : Mode :=
  if !pvPresent && mode ≠ Mode.max_load then Mode.max_load else mode

/-- True exactly when the resolution overrides the requested mode, which
the source signals through logger.info rather than an exception. -/
def modeOverridden (pvPresent : Bool) (mode : Mode) : Bool :=
  !pvPresent && mode ≠ Mode.max_load

/-- Criterion row label for each mode (lines 68 to 77); the NONE member
falls into the assert False branch, rendered none. -/
def columnOf : Mode → Option String
  | Mode.max_load => some "Max Load"
  | Mode.max_pv_load_ratio => some "Max PV to Load Ratio"
  | Mode.daytime_min_load => some "Min Daytime Load"
  | Mode.pv_minus_load => some "Max PV minus Load"
  | Mode.noneMode => none

/-- PV-derived candidate rows (lines 117 to 123), computed only when PV
systems are present: windowed argmax of the ratio, difference and PV
columns, in that insertion order. -/
def pvCandidates (f : List Row) : Except SelErr (List (String × Int)) :=
  match idxmaxE (betweenTime (ratioCol f)) with
  | Except.error e => Except.error e
  | Except.ok r =>
    match idxmaxE (betweenTime (minusCol f)) with
    | Except.error e => Except.error e
    | Except.ok mn =>
      match idxmaxE (betweenTime (pvCol f)) with
      | Except.error e => Except.error e
      | Except.ok p =>
        Except.ok [("Max PV to Load Ratio", r), ("Max PV minus Load", mn),
                   ("Max PV", p)]

/-- Candidate rows of the timepoints frame (lines 115 to 126) in insertion
order: Max Load, the PV-derived rows when PV is present, Min Load, and Min
Daytime Load (computed unconditionally). -/
def candidateTimepoints (c : Circuit) : Except SelErr (List (String × Int)) :=
  let f := aggregate c
  match idxmaxE (loadCol f) with
  | Except.error e => Except.error e
  | Except.ok maxLoad =>
    match (if c.pvSystems.isEmpty then Except.ok [] else pvCandidates f) with
    | Except.error e => Except.error e
    | Except.ok pvRows =>
      match idxminE (loadCol f) with
      | Except.error e => Except.error e
      | Except.ok minLoad =>
        match idxminE (betweenTime (loadCol f)) with
        | Except.error e => Except.error e
        | Except.ok minDay =>
          Except.ok (("Max Load", maxLoad) :: pvRows ++
            [("Min Load", minLoad), ("Min Daytime Load", minDay)])

/-- Embedding of get_snapshot_timepoint: resolve the mode, map it to its
criterion label (assert on NONE), build all candidate rows, and return the
full record (as dumped to the output file) together with the row selected
by the label. -/
def get_snapshot_timepoint (c : Circuit) (mode : Mode) :
    Except SelErr (List (String × Int) × Int) :=
  let pvPresent := !c.pvSystems.isEmpty
  let rmode := resolveMode pvPresent mode
  match columnOf rmode with
  | none => Except.error (SelErr.assertionError (rmode.pyName ++ " is not supported"))
  | some column =>
    match candidateTimepoints c with
    | Except.error e => Except.error e
    | Except.ok tps =>
      match alookup tps column with
      | some ts => Except.ok (tps, ts)
      | none => Except.error SelErr.keyError

/-- Cache-free PV aggregation loop, following the claim wording: each
device materializes its shape independently. -/
def pvPassNoCache (c : Circuit) : List Row :=
  c.pvSystems.foldl
    (fun f d =>
      pvAccum f ((create_loadshape_pmult c d.shapeName).map
        (fun q => (q.1, q.2 * d.rating))))
    []

/-- Cache-free Load aggregation loop, following the claim wording. -/
def loadPassNoCache (c : Circuit) (frame : List Row) : List Row :=
  c.loads.foldl
    (fun f d =>
      loadAccum f ((create_loadshape_pmult c d.shapeName).map
        (fun q => (q.1, q.2 * d.rating))))
    frame

/-- Cache-free aggregate construction. -/
def aggregateNoCache (c : Circuit) : List Row :=
  loadPassNoCache c (pvPassNoCache c)

/-- Candidate rows computed over the cache-free aggregate. -/
def candidateTimepointsNoCache (c : Circuit) : Except SelErr (List (String × Int)) :=
  let f := aggregateNoCache c
  match idxmaxE (loadCol f) with
  | Except.error e => Except.error e
  | Except.ok maxLoad =>
    match (if c.pvSystems.isEmpty then Except.ok [] else pvCandidates f) with
    | Except.error e => Except.error e
    | Except.ok pvRows =>
      match idxminE (loadCol f) with
      | Except.error e => Except.error e
      | Except.ok minLoad =>
        match idxminE (betweenTime (loadCol f)) with
        | Except.error e => Except.error e
        | Except.ok minDay =>
          Except.ok (("Max Load", maxLoad) :: pvRows ++
            [("Min Load", minLoad), ("Min Daytime Load", minDay)])

/-- Selector computed over the cache-free aggregate. -/
def get_snapshot_timepointNoCache (c : Circuit) (mode : Mode) :
    Except SelErr (List (String × Int) × Int) :=
  let pvPresent := !c.pvSystems.isEmpty
  let rmode := resolveMode pvPresent mode
  match columnOf rmode with
  | none => Except.error (SelErr.assertionError (rmode.pyName ++ " is not supported"))
  | some column =>
    match candidateTimepointsNoCache c with
    | Except.error e => Except.error e
    | Except.ok tps =>
      match alookup tps column with
      | some ts => Except.ok (tps, ts)
      | none => Except.error SelErr.keyError

/-- Stable arg-best specification: ts occurs in the column with a non-nan
value beaten by no entry, and every strictly earlier entry is nan or
strictly beaten by it. -/
def IsStableBest (lt : PVal → PVal → Bool) (col : List (Int × PVal)) (ts : Int) : Prop :=
  ∃ i v, col.get? i = some (ts, v) ∧ v ≠ PVal.nan ∧
    (∀ q ∈ col, lt v q.2 = false) ∧
    (∀ j, j < i → ∀ q, col.get? j = some q → q.2 = PVal.nan ∨ lt q.2 v = true)

/-- Midnight 2020-01-01T00:00 UTC in seconds since the Unix epoch. -/
def t0 : Int := 1577836800

/-- Same day at 08:00, the opening boundary of the daily window. -/
def t8 : Int := t0 + 28800

/-- Scenario circuit of the spec: one PV device (Pmpp 5) and one Load
device (kW 10) sharing shape S1 with multipliers 0.2, 0.8, 1.0, 0.3
sampled hourly from 2020-01-01T00:00. -/
def c8c : Circuit :=
  { startTime := t0
    pvSystems := [{ rating := 5, shapeName := "S1" }]
    loads := [{ rating := 10, shapeName := "S1" }]
    shapes := fun _ => { pmult := [1/5, 4/5, 1, 3/10], sinterval := 3600 } }

/-- Well-behaved circuit used by witnesses: one PV and one Load device on
distinct shapes, three hourly points starting at 08:00, all inside the
daily window, with nonzero loads throughout. -/
def cgood : Circuit :=
  { startTime := t8
    pvSystems := [{ rating := 1, shapeName := "P" }]
    loads := [{ rating := 1, shapeName := "L" }]
    shapes := fun n =>
      if n = "P" then { pmult := [1, 2, 1], sinterval := 3600 }
      else { pmult := [2, 1, 3], sinterval := 3600 } }

/-- Circuit whose Load series is zero at the in-window middle point while
PV is nonzero there, making the ratio column infinite at that point. -/
def c4c : Circuit :=
  { startTime := t8
    pvSystems := [{ rating := 1, shapeName := "P" }]
    loads := [{ rating := 1, shapeName := "L" }]
    shapes := fun n =>
      if n = "P" then { pmult := [1, 2, 1], sinterval := 3600 }
      else { pmult := [1, 0, 1], sinterval := 3600 } }

/-- Circuit with one PV device and zero Load devices, all points inside
the daily window. -/
def c5c : Circuit :=
  { startTime := t8
    pvSystems := [{ rating := 1, shapeName := "P" }]
    loads := []
    shapes := fun n =>
      if n = "P" then { pmult := [1, 2, 1], sinterval := 3600 }
      else { pmult := [2, 1, 3], sinterval := 3600 } }

/-- Circuit with zero PV devices and one Load device, all points inside
the daily window. -/
def cnopv : Circuit :=
  { startTime := t8
    pvSystems := []
    loads := [{ rating := 1, shapeName := "L" }]
    shapes := fun _ => { pmult := [2, 1, 3], sinterval := 3600 } }

/-- Second zero-PV circuit, used for the report key-order scenario. -/
def c9c : Circuit :=
  { startTime := t8
    pvSystems := []
    loads := [{ rating := 2, shapeName := "L" }]
    shapes := fun _ => { pmult := [2, 1, 3], sinterval := 3600 } }

instance {ε α : Type} [DecidableEq ε] [DecidableEq α] : DecidableEq (Except ε α) :=
  fun a b =>
    match a, b with
    | Except.ok x, Except.ok y =>
        if h : x = y then isTrue (congrArg Except.ok h)
        else isFalse (fun hc => h (Except.ok.inj hc))
    | Except.error x, Except.error y =>
        if h : x = y then isTrue (congrArg Except.error h)
        else isFalse (fun hc => h (Except.error.inj hc))
    | Except.ok _, Except.error _ => isFalse (fun hc => Except.noConfusion hc)
    | Except.error _, Except.ok _ => isFalse (fun hc => Except.noConfusion hc)

/-- Irreflexivity of the strict value order. -/
lemma pLt_irrefl (v : PVal) : pLt v v = false := by
  cases v <;> simp [pLt]

/-- Nothing is below nan. -/
lemma pLt_nan_right (v : PVal) : pLt v PVal.nan = false := by
  cases v <;> rfl

/-- Nan is below nothing. -/
lemma pLt_nan_left (v : PVal) : pLt PVal.nan v = false := by
  cases v <;> rfl

/-- Asymmetry of the strict value order. -/
lemma pLt_asymm {a b : PVal} (h : pLt a b = true) : pLt b a = false := by
  cases a <;> cases b <;> simp_all [pLt]
  all_goals linarith

/-- Negative transitivity of the strict value order away from nan. -/
lemma pLt_negtrans {a b c : PVal} (h1 : pLt a b = false) (h2 : pLt b c = false)
    (hb : b ≠ PVal.nan) : pLt a c = false := by
  cases a <;> cases b <;> cases c <;> simp_all [pLt]
  all_goals linarith

/-- A value that the strict order does not place below posInf is posInf or
nan. -/
lemma pLt_posInf_eq_false {v : PVal} (h : pLt v PVal.posInf = false) :
    v = PVal.posInf ∨ v = PVal.nan := by
  cases v <;> simp_all [pLt]

/-- Membership of the returned arg-best entry. -/
lemma argbestBy_mem (lt : PVal → PVal → Bool) (l : List (Int × PVal))
    (b : Int × PVal) (h : argbestBy lt l = some b) : b ∈ l := by
  induction l with
  | nil => simp [argbestBy] at h
  | cons p rest ih =>
      simp only [argbestBy] at h
      split at h
      · exact List.mem_cons_of_mem _ (ih h)
      · split at h
        next => cases h; exact List.mem_cons_self _ _
        next bb hr =>
          split at h
          · cases h; exact List.mem_cons_of_mem _ (ih hr)
          · cases h; exact List.mem_cons_self _ _

/-- The returned arg-best value is never nan. -/
lemma argbestBy_nonnan (lt : PVal → PVal → Bool) (l : List (Int × PVal))
    (b : Int × PVal) (h : argbestBy lt l = some b) : b.2 ≠ PVal.nan := by
  induction l with
  | nil => simp [argbestBy] at h
  | cons p rest ih =>
      simp only [argbestBy] at h
      split at h
      next hn => exact ih h
      next hn =>
        split at h
        next => cases h; exact hn
        next bb hr =>
          split at h
          · cases h; exact ih hr
          · cases h; exact hn

/-- When the arg-best scan returns nothing, every entry is nan. -/
lemma argbestBy_none (lt : PVal → PVal → Bool) (l : List (Int × PVal))
    (h : argbestBy lt l = none) : ∀ q ∈ l, q.2 = PVal.nan := by
  induction l with
  | nil => intro q hq; simp at hq
  | cons p rest ih =>
      simp only [argbestBy] at h
      intro q hq
      split at h
      next hn =>
        rcases List.mem_cons.mp hq with hq | hq
        · rw [hq]; exact hn
        · exact ih h q hq
      next hn =>
        split at h
        next => cases h
        next bb hr => split at h <;> cases h

/-- The returned arg-best entry is beaten by no entry of the list. -/
lemma argbestBy_not_beaten (lt : PVal → PVal → Bool)
    (hirr : ∀ x, lt x x = false)
    (hnanR : ∀ x, lt x PVal.nan = false)
    (hnt : ∀ x y z, lt x y = false → lt y z = false → y ≠ PVal.nan →
      lt x z = false)
    (hasym : ∀ x y, lt x y = true → lt y x = false)
    (l : List (Int × PVal)) (b : Int × PVal) (h : argbestBy lt l = some b) :
    ∀ q ∈ l, lt b.2 q.2 = false := by
  induction l generalizing b with
  | nil => simp [argbestBy] at h
  | cons p rest ih =>
      simp only [argbestBy] at h
      intro q hq
      split at h
      next hn =>
        rcases List.mem_cons.mp hq with hq | hq
        · rw [hq, hn]; exact hnanR _
        · exact ih b h q hq
      next hn =>
        split at h
        next hr =>
          cases h
          rcases List.mem_cons.mp hq with hq | hq
          · rw [hq]; exact hirr _
          · rw [argbestBy_none lt rest hr q hq]; exact hnanR _
        next bb hr =>
          split at h
          next hlt =>
            have hb2 : bb = b := Option.some.inj h
            rcases List.mem_cons.mp hq with hq | hq
            · rw [hq, ← hb2]; exact hasym _ _ hlt
            · exact ih b (hb2 ▸ hr) q hq
          next hlt =>
            have hpb : p = b := Option.some.inj h
            rcases List.mem_cons.mp hq with hq | hq
            · rw [hq, ← hpb]; exact hirr _
            · exact hnt b.2 bb.2 q.2 (hpb ▸ Bool.of_not_eq_true hlt)
                (ih bb hr q hq) (argbestBy_nonnan lt rest bb hr)

/-- The returned arg-best entry occurs at a position every strictly earlier
entry of which is nan or strictly beaten by it. -/
lemma argbestBy_earliest (lt : PVal → PVal → Bool)
    (l : List (Int × PVal)) (b : Int × PVal) (h : argbestBy lt l = some b) :
    ∃ i, l.get? i = some b ∧
      ∀ j, j < i → ∀ q, l.get? j = some q →
        q.2 = PVal.nan ∨ lt q.2 b.2 = true := by
  induction l with
  | nil => simp [argbestBy] at h
  | cons p rest ih =>
      simp only [argbestBy] at h
      split at h
      next hn =>
        obtain ⟨i, hi, hearly⟩ := ih h
        refine ⟨i + 1, by simpa using hi, ?_⟩
        intro j hj q hq
        cases j with
        | zero =>
            left
            simp only [List.get?] at hq
            cases hq
            exact hn
        | succ k =>
            exact hearly k (Nat.lt_of_succ_lt_succ hj) q (by simpa using hq)
      next hn =>
        split at h
        next hr =>
          cases h
          exact ⟨0, rfl, by intro j hj; omega⟩
        next bb hr =>
          split at h
          next hlt =>
            cases h
            obtain ⟨i, hi, hearly⟩ := ih hr
            refine ⟨i + 1, by simpa using hi, ?_⟩
            intro j hj q hq
            cases j with
            | zero =>
                right
                simp only [List.get?] at hq
                cases hq
                exact hlt
            | succ k =>
                exact hearly k (Nat.lt_of_succ_lt_succ hj) q (by simpa using hq)
          next hlt =>
            cases h
            exact ⟨0, rfl, by intro j hj; omega⟩

/-- Specification of idxmax: a stable argmax of the column. -/
lemma idxmaxE_stable (col : List (Int × PVal)) (ts : Int)
    (h : idxmaxE col = Except.ok ts) : IsStableBest pLt col ts := by
  unfold idxmaxE at h
  split at h
  next b hb =>
    cases h
    obtain ⟨i, hi, hearly⟩ := argbestBy_earliest pLt col b hb
    exact ⟨i, b.2, by simpa using hi, argbestBy_nonnan pLt col b hb,
      argbestBy_not_beaten pLt pLt_irrefl pLt_nan_right
        (fun _ _ _ h1 h2 hbn => pLt_negtrans h1 h2 hbn)
        (fun _ _ hxy => pLt_asymm hxy) col b hb,
      hearly⟩
  next => cases h

/-- Specification of idxmin: a stable argmin of the column. -/
lemma idxminE_stable (col : List (Int × PVal)) (ts : Int)
    (h : idxminE col = Except.ok ts) : IsStableBest pGt col ts := by
  unfold idxminE at h
  split at h
  next b hb =>
    cases h
    obtain ⟨i, hi, hearly⟩ := argbestBy_earliest pGt col b hb
    exact ⟨i, b.2, by simpa using hi, argbestBy_nonnan pGt col b hb,
      argbestBy_not_beaten pGt (fun x => pLt_irrefl x)
        (fun x => pLt_nan_left x)
        (fun x y z h1 h2 hbn => pLt_negtrans h2 h1 hbn)
        (fun x y hxy => pLt_asymm hxy) col b hb,
      hearly⟩
  next => cases h

/-- An entry at the stable-best position belongs to the column. -/
lemma IsStableBest.mem {lt : PVal → PVal → Bool} {col : List (Int × PVal)}
    {ts : Int} (h : IsStableBest lt col ts) : ∃ v, (ts, v) ∈ col := by
  obtain ⟨i, v, hi, _, _, _⟩ := h
  exact ⟨v, List.get?_mem hi⟩

/-- Entries of the windowed restriction lie inside the daily window. -/
lemma betweenTime_inWindow {col : List (Int × PVal)} {q : Int × PVal}
    (h : q ∈ betweenTime col) : inWindow q.1 = true := by
  exact (List.mem_filter.mp h).2

/-- A stable-best timestamp of a windowed column lies inside the daily
window. -/
lemma IsStableBest.inWindow {lt : PVal → PVal → Bool}
    {col : List (Int × PVal)} {ts : Int}
    (h : IsStableBest lt (betweenTime col) ts) : inWindow ts = true := by
  obtain ⟨v, hv⟩ := h.mem
  exact betweenTime_inWindow hv

/-- Inversion of a successful PV candidate computation. -/
lemma pvCandidates_ok (f : List Row) (rows : List (String × Int))
    (h : pvCandidates f = Except.ok rows) :
    ∃ r mn p,
      idxmaxE (betweenTime (ratioCol f)) = Except.ok r ∧
      idxmaxE (betweenTime (minusCol f)) = Except.ok mn ∧
      idxmaxE (betweenTime (pvCol f)) = Except.ok p ∧
      rows = [("Max PV to Load Ratio", r), ("Max PV minus Load", mn),
        ("Max PV", p)] := by
  unfold pvCandidates at h
  split at h
  next => exact Except.noConfusion h
  next r hr =>
    split at h
    next => exact Except.noConfusion h
    next mn hmn =>
      split at h
      next => exact Except.noConfusion h
      next p hp =>
        exact ⟨r, mn, p, hr, hmn, hp, (Except.ok.inj h).symm⟩

/-- Inversion of a successful candidate computation: the three Load-based
rows always succeed, the PV rows are empty or computed by pvCandidates
according to PV presence, and the record has the fixed shape. -/
lemma candidateTimepoints_ok (c : Circuit) (tps : List (String × Int))
    (h : candidateTimepoints c = Except.ok tps) :
    ∃ maxL pvRows minL minD,
      idxmaxE (loadCol (aggregate c)) = Except.ok maxL ∧
      idxminE (loadCol (aggregate c)) = Except.ok minL ∧
      idxminE (betweenTime (loadCol (aggregate c))) = Except.ok minD ∧
      ((c.pvSystems.isEmpty = true ∧ pvRows = []) ∨
        (c.pvSystems.isEmpty = false ∧
          pvCandidates (aggregate c) = Except.ok pvRows)) ∧
      tps = ("Max Load", maxL) :: pvRows ++
        [("Min Load", minL), ("Min Daytime Load", minD)] := by
  by_cases hpv : c.pvSystems.isEmpty
  · simp only [candidateTimepoints, if_pos hpv] at h
    split at h
    next => exact Except.noConfusion h
    next maxL hmaxL =>
      split at h
      next => exact Except.noConfusion h
      next minL hminL =>
        split at h
        next => exact Except.noConfusion h
        next minD hminD =>
          exact ⟨maxL, [], minL, minD, hmaxL, hminL, hminD,
            Or.inl ⟨hpv, rfl⟩, (Except.ok.inj h).symm⟩
  · simp only [candidateTimepoints, if_neg hpv] at h
    split at h
    next => exact Except.noConfusion h
    next maxL hmaxL =>
      split at h
      next => exact Except.noConfusion h
      next pvRows hpvRows =>
        split at h
        next => exact Except.noConfusion h
        next minL hminL =>
          split at h
          next => exact Except.noConfusion h
          next minD hminD =>
            exact ⟨maxL, pvRows, minL, minD, hmaxL, hminL, hminD,
              Or.inr ⟨Bool.of_not_eq_true hpv, hpvRows⟩,
              (Except.ok.inj h).symm⟩

/-- Inversion of a successful selector call: the report is the candidate
record and the selected timestamp is the row named by the resolved mode. -/
lemma get_snapshot_timepoint_ok (c : Circuit) (m : Mode)
    (r : List (String × Int) × Int)
    (h : get_snapshot_timepoint c m = Except.ok r) :
    candidateTimepoints c = Except.ok r.1 ∧
    ∃ col, columnOf (resolveMode (!c.pvSystems.isEmpty) m) = some col ∧
      alookup r.1 col = some r.2 := by
  simp only [get_snapshot_timepoint] at h
  split at h
  next => exact Except.noConfusion h
  next col hcol =>
    split at h
    next => exact Except.noConfusion h
    next tps htps =>
      split at h
      next ts hts =>
        cases h
        exact ⟨htps, col, hcol, hts⟩
      next => exact Except.noConfusion h

/-- The only error idxmax raises is the value error. -/
lemma idxmaxE_error (col : List (Int × PVal)) (e : SelErr)
    (h : idxmaxE col = Except.error e) : e = SelErr.valueError := by
  unfold idxmaxE at h
  split at h
  next => exact Except.noConfusion h
  next => exact (Except.error.inj h).symm

/-- The only error idxmin raises is the value error. -/
lemma idxminE_error (col : List (Int × PVal)) (e : SelErr)
    (h : idxminE col = Except.error e) : e = SelErr.valueError := by
  unfold idxminE at h
  split at h
  next => exact Except.noConfusion h
  next => exact (Except.error.inj h).symm

/-- The only error the PV candidate block raises is the value error. -/
lemma pvCandidates_error (f : List Row) (e : SelErr)
    (h : pvCandidates f = Except.error e) : e = SelErr.valueError := by
  unfold pvCandidates at h
  split at h
  next e2 he =>
    cases h
    exact idxmaxE_error _ _ he
  next r hr =>
    split at h
    next e2 he =>
      cases h
      exact idxmaxE_error _ _ he
    next mn hmn =>
      split at h
      next e2 he =>
        cases h
        exact idxmaxE_error _ _ he
      next => exact Except.noConfusion h

/-- The only error the candidate computation raises is the value error. -/
lemma candidateTimepoints_error (c : Circuit) (e : SelErr)
    (h : candidateTimepoints c = Except.error e) : e = SelErr.valueError := by
  by_cases hpv : c.pvSystems.isEmpty
  · simp only [candidateTimepoints, if_pos hpv] at h
    split at h
    next e2 he =>
      cases h
      exact idxmaxE_error _ _ he
    next maxL hmaxL =>
      split at h
      next e2 he =>
        cases h
        exact idxminE_error _ _ he
      next minL hminL =>
        split at h
        next e2 he =>
          cases h
          exact idxminE_error _ _ he
        next => exact Except.noConfusion h
  · simp only [candidateTimepoints, if_neg hpv] at h
    split at h
    next e2 he =>
      cases h
      exact idxmaxE_error _ _ he
    next maxL hmaxL =>
      split at h
      next e2 he =>
        cases h
        exact pvCandidates_error _ _ he
      next pvRows hpvRows =>
        split at h
        next e2 he =>
          cases h
          exact idxminE_error _ _ he
        next minL hminL =>
          split at h
          next e2 he =>
            cases h
            exact idxminE_error _ _ he
          next => exact Except.noConfusion h

/-- When the resolved mode has a criterion label, the selector never fails
with an assertion error: the assert is the only assertion in the script. -/
lemma no_assertion_when_column_resolves (c : Circuit) (m : Mode) (col : String)
    (hcol : columnOf (resolveMode (!c.pvSystems.isEmpty) m) = some col) :
    ∀ msg, get_snapshot_timepoint c m ≠ Except.error (SelErr.assertionError msg) := by
  intro msg h
  simp only [get_snapshot_timepoint, hcol] at h
  split at h
  next e he =>
    cases h
    exact absurd (candidateTimepoints_error _ _ he).symm (by simp)
  next tps htps =>
    split at h
    next => exact Except.noConfusion h
    next => exact SelErr.noConfusion (Except.error.inj h)

/-- A successful association-list lookup comes from a member entry. -/
lemma alookup_mem {α : Type} (l : List (String × α)) (k : String) (v : α)
    (h : alookup l k = some v) : (k, v) ∈ l := by
  induction l with
  | nil => simp [alookup] at h
  | cons p rest ih =>
      simp only [alookup] at h
      split at h
      next heq =>
        cases h
        subst heq
        exact List.mem_cons_self _ _
      next heq => exact List.mem_cons_of_mem _ (ih h)

/-- Under the cache invariant, a cache access yields exactly the
materialized shape and preserves the invariant. -/
lemma cacheGet_spec (cache : List (String × List (Int × ℚ))) (c : Circuit)
    (name : String)
    (hinv : ∀ p ∈ cache, p.2 = create_loadshape_pmult c p.1) :
    (cacheGet cache c name).2 = create_loadshape_pmult c name ∧
    ∀ p ∈ (cacheGet cache c name).1, p.2 = create_loadshape_pmult c p.1 := by
  unfold cacheGet
  split
  next s hs =>
    exact ⟨hinv _ (alookup_mem _ _ _ hs), hinv⟩
  next hs =>
    refine ⟨rfl, ?_⟩
    intro p hp
    rcases List.mem_cons.mp hp with hp | hp
    · rw [hp]
    · exact hinv p hp

/-- A cached aggregation fold equals the cache-free fold whenever the
starting cache satisfies the invariant. -/
lemma foldl_cache_free (c : Circuit)
    (accumF : List Row → List (Int × ℚ) → List Row)
    (devs : List Device) (fr : List Row)
    (cache : List (String × List (Int × ℚ)))
    (hinv : ∀ p ∈ cache, p.2 = create_loadshape_pmult c p.1) :
    (devs.foldl (fun st d =>
        (accumF st.1 ((cacheGet st.2 c d.shapeName).2.map
          (fun q => (q.1, q.2 * d.rating))), (cacheGet st.2 c d.shapeName).1))
      (fr, cache)).1
    = devs.foldl (fun f d =>
        accumF f ((create_loadshape_pmult c d.shapeName).map
          (fun q => (q.1, q.2 * d.rating)))) fr := by
  induction devs generalizing fr cache with
  | nil => rfl
  | cons d rest ih =>
      simp only [List.foldl_cons]
      have hs := cacheGet_spec cache c d.shapeName hinv
      rw [hs.1]
      exact ih _ _ hs.2

/-- The PV pass with its shape cache equals the cache-free PV pass. -/
lemma pvPass_eq_noCache (c : Circuit) : pvPass c = pvPassNoCache c := by
  unfold pvPass pvPassNoCache
  exact foldl_cache_free c pvAccum c.pvSystems [] [] (by simp)

/-- The Load pass with its shape cache equals the cache-free Load pass. -/
lemma loadPass_eq_noCache (c : Circuit) (frame : List Row) :
    loadPass c frame = loadPassNoCache c frame := by
  unfold loadPass loadPassNoCache
  exact foldl_cache_free c loadAccum c.loads frame [] (by simp)

/-- The cached aggregate equals the cache-free aggregate. -/
lemma aggregate_eq_noCache (c : Circuit) : aggregate c = aggregateNoCache c := by
  unfold aggregate aggregateNoCache
  rw [pvPass_eq_noCache, loadPass_eq_noCache]

/-- The candidate records agree with and without the shape caches. -/
lemma candidateTimepoints_eq_noCache (c : Circuit) :
    candidateTimepoints c = candidateTimepointsNoCache c := by
  unfold candidateTimepoints candidateTimepointsNoCache
  rw [aggregate_eq_noCache]

/-- Windowed restrictions of all frame-derived columns vanish together:
the window test only inspects the timestamp. -/
lemma betweenTime_derived_nil (f : List Row) (g : Row → PVal)
    (h : betweenTime (loadCol f) = []) :
    betweenTime (f.map (fun r => (r.ts, g r))) = [] := by
  simp only [betweenTime, loadCol] at h ⊢
  rw [List.filter_map] at h ⊢
  simp only [List.map_eq_nil_iff] at h ⊢
  exact h

/-- C1: for every circuit and mode on which the selector succeeds, the Max
Load row of the report is the earliest timestamp attaining the global
maximum of the aggregate Load series over the full horizon (its value is
not below any other value of the series), and the Min Load row is the
earliest timestamp attaining the global minimum. -/
theorem maxLoad_minLoad_global_argmax (c : Circuit) (m : Mode)
    (r : List (String × Int) × Int)
    (h : get_snapshot_timepoint c m = Except.ok r) :
    (∀ ts, alookup r.1 "Max Load" = some ts →
      IsStableBest pLt (loadCol (aggregate c)) ts) ∧
    (∀ ts, alookup r.1 "Min Load" = some ts →
      IsStableBest pGt (loadCol (aggregate c)) ts) := by
  obtain ⟨hc, -⟩ := get_snapshot_timepoint_ok c m r h
  obtain ⟨maxL, pvRows, minL, minD, hmaxL, hminL, hminD, hpvd, hshape⟩ :=
    candidateTimepoints_ok c r.1 hc
  constructor
  · intro ts hts
    have hts2 : ts = maxL := by
      rw [hshape] at hts
      simp [alookup] at hts
      omega
    rw [hts2]
    exact idxmaxE_stable _ _ hmaxL
  · intro ts hts
    have hts2 : ts = minL := by
      rw [hshape] at hts
      rcases hpvd with ⟨hp, rfl⟩ | ⟨hp, hpve⟩
      · simp [alookup] at hts
        omega
      · obtain ⟨r2, mn, p2, _, _, _, rfl⟩ := pvCandidates_ok _ _ hpve
        simp [alookup] at hts
        omega
    rw [hts2]
    exact idxminE_stable _ _ hminL

/-- C2: for every circuit and mode on which the selector succeeds, each
daytime-windowed row of the report (Max PV to Load Ratio, Max PV minus
Load, Max PV, Min Daytime Load) carries a timestamp whose seconds-of-day
lie between 08:00 and 17:00 inclusive, and that timestamp is the stable
earliest arg-best of the corresponding series restricted to the daily
window, so no out-of-window point is ever chosen. -/
theorem windowed_criteria_within_daytime (c : Circuit) (m : Mode)
    (r : List (String × Int) × Int)
    (h : get_snapshot_timepoint c m = Except.ok r) :
    (∀ ts, alookup r.1 "Max PV to Load Ratio" = some ts →
      inWindow ts = true ∧
      IsStableBest pLt (betweenTime (ratioCol (aggregate c))) ts) ∧
    (∀ ts, alookup r.1 "Max PV minus Load" = some ts →
      inWindow ts = true ∧
      IsStableBest pLt (betweenTime (minusCol (aggregate c))) ts) ∧
    (∀ ts, alookup r.1 "Max PV" = some ts →
      inWindow ts = true ∧
      IsStableBest pLt (betweenTime (pvCol (aggregate c))) ts) ∧
    (∀ ts, alookup r.1 "Min Daytime Load" = some ts →
      inWindow ts = true ∧
      IsStableBest pGt (betweenTime (loadCol (aggregate c))) ts) := by
  obtain ⟨hc, -⟩ := get_snapshot_timepoint_ok c m r h
  obtain ⟨maxL, pvRows, minL, minD, hmaxL, hminL, hminD, hpvd, hshape⟩ :=
    candidateTimepoints_ok c r.1 hc
  rcases hpvd with ⟨hp, rfl⟩ | ⟨hp, hpve⟩
  · rw [hshape]
    refine ⟨?_, ?_, ?_, ?_⟩ <;> intro ts hts
    · simp [alookup] at hts
    · simp [alookup] at hts
    · simp [alookup] at hts
    · have hts2 : ts = minD := by simp [alookup] at hts; omega
      rw [hts2]
      have hs := idxminE_stable _ _ hminD
      exact ⟨hs.inWindow, hs⟩
  · obtain ⟨r2, mn, p2, hr2, hmn, hp2, rfl⟩ := pvCandidates_ok _ _ hpve
    rw [hshape]
    refine ⟨?_, ?_, ?_, ?_⟩ <;> intro ts hts
    · have hts2 : ts = r2 := by simp [alookup] at hts; omega
      rw [hts2]
      have hs := idxmaxE_stable _ _ hr2
      exact ⟨hs.inWindow, hs⟩
    · have hts2 : ts = mn := by simp [alookup] at hts; omega
      rw [hts2]
      have hs := idxmaxE_stable _ _ hmn
      exact ⟨hs.inWindow, hs⟩
    · have hts2 : ts = p2 := by simp [alookup] at hts; omega
      rw [hts2]
      have hs := idxmaxE_stable _ _ hp2
      exact ⟨hs.inWindow, hs⟩
    · have hts2 : ts = minD := by simp [alookup] at hts; omega
      rw [hts2]
      have hs := idxminE_stable _ _ hminD
      exact ⟨hs.inWindow, hs⟩

/-- C3: with zero PV devices and a requested mode other than max_load the
effective mode is max_load and the override is signalled (modelled by the
modeOverridden flag standing for the logger.info call) without the selector
ever failing with an assertion error; with mode max_load or with PV devices
present the requested mode is used unchanged. -/
theorem mode_resolution_override (c : Circuit) (m : Mode) :
    (c.pvSystems = [] → m ≠ Mode.max_load →
      resolveMode (!c.pvSystems.isEmpty) m = Mode.max_load ∧
      modeOverridden (!c.pvSystems.isEmpty) m = true ∧
      ∀ msg, get_snapshot_timepoint c m ≠
        Except.error (SelErr.assertionError msg)) ∧
    (m = Mode.max_load →
      resolveMode (!c.pvSystems.isEmpty) m = m ∧
      modeOverridden (!c.pvSystems.isEmpty) m = false) ∧
    (c.pvSystems ≠ [] →
      resolveMode (!c.pvSystems.isEmpty) m = m ∧
      modeOverridden (!c.pvSystems.isEmpty) m = false) := by
  refine ⟨?_, ?_, ?_⟩
  · intro hpv hm
    have hres : resolveMode (!c.pvSystems.isEmpty) m = Mode.max_load := by
      simp [resolveMode, hpv, hm]
    refine ⟨hres, by simp [modeOverridden, hpv, hm], ?_⟩
    exact no_assertion_when_column_resolves c m "Max Load" (by rw [hres]; rfl)
  · intro hm
    subst hm
    exact ⟨by simp [resolveMode], by simp [modeOverridden]⟩
  · intro hpv
    have hempty : c.pvSystems.isEmpty = false := by
      cases hc : c.pvSystems with
      | nil => exact absurd hc hpv
      | cons a l => rfl
    exact ⟨by simp [resolveMode, hempty], by simp [modeOverridden, hempty]⟩

/-- C7 amended: the Min Daytime Load row is computed unconditionally, so
for every zero-PV circuit on which the selector succeeds the computed
criteria are exactly Max Load, Min Load and Min Daytime Load. -/
theorem zero_pv_criteria_exactly (c : Circuit) (m : Mode)
    (r : List (String × Int) × Int)
    (hpv : c.pvSystems = [])
    (h : get_snapshot_timepoint c m = Except.ok r) :
    r.1.map Prod.fst = ["Max Load", "Min Load", "Min Daytime Load"] := by
  obtain ⟨hc, -⟩ := get_snapshot_timepoint_ok c m r h
  obtain ⟨maxL, pvRows, minL, minD, -, -, -, hpvd, hshape⟩ :=
    candidateTimepoints_ok c r.1 hc
  rcases hpvd with ⟨hp, rfl⟩ | ⟨hp, -⟩
  · rw [hshape]; rfl
  · rw [hpv] at hp
    simp at hp

/-- C9 amended: on every successful call the report keys appear in the
computation order Max Load, then (with PV present) Max PV to Load Ratio,
Max PV minus Load and Max PV, then Min Load, then Min Daytime Load, the
last regardless of PV presence. -/
theorem report_key_order (c : Circuit) (m : Mode)
    (r : List (String × Int) × Int)
    (h : get_snapshot_timepoint c m = Except.ok r) :
    r.1.map Prod.fst = "Max Load" ::
      (if c.pvSystems.isEmpty then []
       else ["Max PV to Load Ratio", "Max PV minus Load", "Max PV"]) ++
      ["Min Load", "Min Daytime Load"] := by
  obtain ⟨hc, -⟩ := get_snapshot_timepoint_ok c m r h
  obtain ⟨maxL, pvRows, minL, minD, -, -, -, hpvd, hshape⟩ :=
    candidateTimepoints_ok c r.1 hc
  rcases hpvd with ⟨hp, rfl⟩ | ⟨hp, hpve⟩
  · simp [hshape, hp]
  · obtain ⟨r2, mn, p2, -, -, -, rfl⟩ := pvCandidates_ok _ _ hpve
    simp [hshape, hp]

/-- C10: the per-shape caches are semantically transparent: the aggregate
built through the pv_shapes and load_shapes caches equals the aggregate
that materializes the shape independently for each device, and the full
selector result is unchanged by caching. -/
theorem cache_transparent (c : Circuit) (m : Mode) :
    aggregate c = aggregateNoCache c ∧
    get_snapshot_timepoint c m = get_snapshot_timepointNoCache c m := by
  refine ⟨aggregate_eq_noCache c, ?_⟩
  unfold get_snapshot_timepoint get_snapshot_timepointNoCache
  rw [candidateTimepoints_eq_noCache]

/-- C4 amended: with PV present, a timestamp whose PV to Load Ratio is
infinite (zero Load, positive PV) inside the daily window is not excluded:
the computation does not crash, and the Max PV to Load Ratio row is then a
timestamp whose ratio value is itself infinite. -/
theorem ratio_inf_selected_when_present (c : Circuit) (m : Mode)
    (r : List (String × Int) × Int) (ts : Int)
    (h : get_snapshot_timepoint c m = Except.ok r)
    (hpvs : c.pvSystems ≠ [])
    (hinf : (ts, PVal.posInf) ∈ betweenTime (ratioCol (aggregate c))) :
    ∃ ts2, alookup r.1 "Max PV to Load Ratio" = some ts2 ∧
      (ts2, PVal.posInf) ∈ betweenTime (ratioCol (aggregate c)) := by
  obtain ⟨hc, -⟩ := get_snapshot_timepoint_ok c m r h
  obtain ⟨maxL, pvRows, minL, minD, -, -, -, hpvd, hshape⟩ :=
    candidateTimepoints_ok c r.1 hc
  rcases hpvd with ⟨hp, rfl⟩ | ⟨hp, hpve⟩
  · rw [List.isEmpty_iff] at hp
    exact absurd hp hpvs
  · obtain ⟨r2, mn, p2, hr2, -, -, rfl⟩ := pvCandidates_ok _ _ hpve
    obtain ⟨i, v, hi, hnn, hmax, -⟩ := idxmaxE_stable _ _ hr2
    have hvle := hmax (ts, PVal.posInf) hinf
    have hv : v = PVal.posInf := by
      rcases pLt_posInf_eq_false hvle with hv | hv
      · exact hv
      · exact absurd hv hnn
    refine ⟨r2, ?_, ?_⟩
    · rw [hshape]
      simp [alookup]
    · rw [← hv]
      exact List.get?_mem hi

/-- C5 amended: when the daily window restriction leaves no point of the
horizon, selection fails with the value error raised by idxmax or idxmin
on an empty series (the script defines no NoDataError), for every mode
whose resolution yields a criterion label. -/
theorem empty_window_value_error (c : Circuit) (m : Mode) (col : String)
    (hcol : columnOf (resolveMode (!c.pvSystems.isEmpty) m) = some col)
    (hwin : betweenTime (loadCol (aggregate c)) = []) :
    get_snapshot_timepoint c m = Except.error SelErr.valueError := by
  have hcand : candidateTimepoints c = Except.error SelErr.valueError := by
    by_cases hpv : c.pvSystems.isEmpty
    · simp only [candidateTimepoints, if_pos hpv]
      cases hml : idxmaxE (loadCol (aggregate c)) with
      | error e => simp [hml, idxmaxE_error _ _ hml]
      | ok maxL =>
          cases hmin : idxminE (loadCol (aggregate c)) with
          | error e => simp [hml, hmin, idxminE_error _ _ hmin]
          | ok minL =>
              have hday : idxminE (betweenTime (loadCol (aggregate c))) =
                  Except.error SelErr.valueError := by
                rw [hwin]; rfl
              simp [hml, hmin, hday]
    · have hratio : betweenTime (ratioCol (aggregate c)) = [] :=
        betweenTime_derived_nil _ _ hwin
      have hpvc : pvCandidates (aggregate c) = Except.error SelErr.valueError := by
        unfold pvCandidates
        rw [hratio]
        rfl
      simp only [candidateTimepoints, if_neg hpv]
      cases hml : idxmaxE (loadCol (aggregate c)) with
      | error e => simp [hml, idxmaxE_error _ _ hml]
      | ok maxL => simp [hml, hpvc]
  simp [get_snapshot_timepoint, hcol, hcand]

/-- C6 amended: when mode none reaches the selector with PV devices
present it fails through the assert (an assertion error carrying the
interpolated mode name), not a configuration error; with zero PV devices
every mode is resolved to max_load first, so no assertion error is ever
raised, in particular not for PV-dependent modes. -/
theorem unsupported_mode_assertion (c : Circuit) (m : Mode) :
    (c.pvSystems ≠ [] → m = Mode.noneMode →
      get_snapshot_timepoint c m = Except.error (SelErr.assertionError
        "SnapshotTimePointSelectionMode.NONE is not supported")) ∧
    (c.pvSystems = [] → ∀ msg,
      get_snapshot_timepoint c m ≠ Except.error (SelErr.assertionError msg)) := by
  constructor
  · intro hpv hm
    subst hm
    have hempty : c.pvSystems.isEmpty = false := by
      cases hc : c.pvSystems with
      | nil => exact absurd hc hpv
      | cons a l => rfl
    have hres : resolveMode (!c.pvSystems.isEmpty) Mode.noneMode =
        Mode.noneMode := by
      simp [resolveMode, hempty]
    simp [get_snapshot_timepoint, hres, columnOf, Mode.pyName]
  · intro hpv msg
    have hres : resolveMode (!c.pvSystems.isEmpty) m = Mode.max_load := by
      by_cases hm : m = Mode.max_load
      · subst hm; simp [resolveMode]
      · simp [resolveMode, hpv, hm]
    exact no_assertion_when_column_resolves c m "Max Load"
      (by rw [hres]; rfl) msg

section ConcreteEvaluation

attribute [local semireducible] Rat.add Rat.mul Rat.inv Rat.sub

/-- C8: for the spec scenario (PV device with Pmpp 5 and Load device with
kW 10 on shape S1 = 0.2, 0.8, 1.0, 0.3 hourly from 2020-01-01T00:00) the
aggregator yields Load 2, 8, 10, 3 and PV 1, 4, 5, 1.5, and the Max Load
candidate is 2020-01-01T02:00 (second 7200 of the day). -/
theorem scenario_aggregation_and_max_load :
    loadCol (aggregate c8c) = [(t0, PVal.fin 2), (t0 + 3600, PVal.fin 8),
      (t0 + 7200, PVal.fin 10), (t0 + 10800, PVal.fin 3)] ∧
    pvCol (aggregate c8c) = [(t0, PVal.fin 1), (t0 + 3600, PVal.fin 4),
      (t0 + 7200, PVal.fin 5), (t0 + 10800, PVal.fin (3/2))] ∧
    idxmaxE (loadCol (aggregate c8c)) = Except.ok (t0 + 7200) := by
  refine ⟨by decide, by decide, by decide⟩

/-- C4 counterexample: in circuit c4c the Load series is zero at the
in-window timestamp t8 plus 3600 while PV is 2 there, the ratio column is
infinite at that point, and the selector does return exactly that
timestamp as the Max PV to Load Ratio candidate instead of excluding it. -/
theorem ratio_inf_excluded_counterexample :
    get_snapshot_timepoint c4c Mode.max_pv_load_ratio =
      Except.ok ([("Max Load", t8), ("Max PV to Load Ratio", t8 + 3600),
        ("Max PV minus Load", t8 + 3600), ("Max PV", t8 + 3600),
        ("Min Load", t8 + 3600), ("Min Daytime Load", t8 + 3600)],
        t8 + 3600) ∧
    ratioCol (aggregate c4c) =
      [(t8, PVal.fin 1), (t8 + 3600, PVal.posInf), (t8 + 7200, PVal.fin 1)] ∧
    (aggregate c4c).map Row.load =
      [PVal.fin 1, PVal.fin 0, PVal.fin 1] ∧
    (aggregate c4c).map Row.pv =
      [PVal.fin 1, PVal.fin 2, PVal.fin 1] := by
  refine ⟨by decide, by decide, by decide, by decide⟩

/-- C5 counterexample: circuit c5c has one PV device and zero Load
devices, yet selection does not fail at all: the nan-replacement fills the
Load column with zeros and the call succeeds, returning the earliest
timestamp as Max Load. -/
theorem zero_loads_no_failure_counterexample :
    c5c.loads = [] ∧ c5c.pvSystems ≠ [] ∧
    get_snapshot_timepoint c5c Mode.max_load =
      Except.ok ([("Max Load", t8), ("Max PV to Load Ratio", t8),
        ("Max PV minus Load", t8 + 3600), ("Max PV", t8 + 3600),
        ("Min Load", t8), ("Min Daytime Load", t8)], t8) := by
  refine ⟨rfl, by decide, by decide⟩

/-- C6 counterexample: with PV present, mode none makes the selector fail
through the assert with an assertion error, not a configuration error;
and a PV-dependent mode with zero PV devices raises no error at all: it is
overridden to max_load and the call succeeds. -/
theorem configuration_error_counterexample :
    get_snapshot_timepoint cgood Mode.noneMode =
      Except.error (SelErr.assertionError
        "SnapshotTimePointSelectionMode.NONE is not supported") ∧
    cgood.pvSystems ≠ [] ∧
    cnopv.pvSystems = [] ∧
    get_snapshot_timepoint cnopv Mode.max_pv_load_ratio =
      Except.ok ([("Max Load", t8 + 7200), ("Min Load", t8 + 3600),
        ("Min Daytime Load", t8 + 3600)], t8 + 7200) := by
  refine ⟨by decide, by decide, rfl, by decide⟩

/-- C7 counterexample: circuit cnopv has zero PV devices, yet the report
of a successful selection contains the Min Daytime Load criterion. -/
theorem min_daytime_without_pv_counterexample :
    cnopv.pvSystems = [] ∧
    get_snapshot_timepoint cnopv Mode.max_load =
      Except.ok ([("Max Load", t8 + 7200), ("Min Load", t8 + 3600),
        ("Min Daytime Load", t8 + 3600)], t8 + 7200) ∧
    alookup [("Max Load", t8 + 7200), ("Min Load", t8 + 3600),
      ("Min Daytime Load", t8 + 3600)] "Min Daytime Load" =
      some (t8 + 3600) := by
  refine ⟨rfl, by decide, by decide⟩

/-- C9 counterexample: for the zero-PV circuit c9c the report keys are Max
Load, Min Load and Min Daytime Load, not the two keys the claim predicts
when the PV-dependent criteria (including Min Daytime Load) are absent. -/
theorem report_key_order_counterexample :
    c9c.pvSystems = [] ∧
    get_snapshot_timepoint c9c Mode.max_load =
      Except.ok ([("Max Load", t8 + 7200), ("Min Load", t8 + 3600),
        ("Min Daytime Load", t8 + 3600)], t8 + 7200) ∧
    ([("Max Load", t8 + 7200), ("Min Load", t8 + 3600),
      ("Min Daytime Load", t8 + 3600)].map Prod.fst ≠
      ["Max Load", "Min Load"]) := by
  refine ⟨rfl, by decide, by decide⟩

/-- C1 witness: the theorem applied to the concrete circuit cgood. -/
theorem maxLoad_minLoad_global_argmax_witness :
    IsStableBest pLt (loadCol (aggregate cgood)) (t8 + 7200) ∧
    IsStableBest pGt (loadCol (aggregate cgood)) (t8 + 3600) := by
  have h := maxLoad_minLoad_global_argmax cgood Mode.max_load
    ([("Max Load", t8 + 7200), ("Max PV to Load Ratio", t8 + 3600),
      ("Max PV minus Load", t8 + 3600), ("Max PV", t8 + 3600),
      ("Min Load", t8 + 3600), ("Min Daytime Load", t8 + 3600)], t8 + 7200)
    (by decide)
  exact ⟨h.1 _ (by decide), h.2 _ (by decide)⟩

/-- C2 witness: the theorem applied to the concrete circuit cgood. -/
theorem windowed_criteria_within_daytime_witness :
    (inWindow (t8 + 3600) = true ∧
      IsStableBest pLt (betweenTime (ratioCol (aggregate cgood))) (t8 + 3600)) ∧
    (inWindow (t8 + 3600) = true ∧
      IsStableBest pLt (betweenTime (minusCol (aggregate cgood))) (t8 + 3600)) ∧
    (inWindow (t8 + 3600) = true ∧
      IsStableBest pLt (betweenTime (pvCol (aggregate cgood))) (t8 + 3600)) ∧
    (inWindow (t8 + 3600) = true ∧
      IsStableBest pGt (betweenTime (loadCol (aggregate cgood))) (t8 + 3600)) := by
  have h := windowed_criteria_within_daytime cgood Mode.max_load
    ([("Max Load", t8 + 7200), ("Max PV to Load Ratio", t8 + 3600),
      ("Max PV minus Load", t8 + 3600), ("Max PV", t8 + 3600),
      ("Min Load", t8 + 3600), ("Min Daytime Load", t8 + 3600)], t8 + 7200)
    (by decide)
  exact ⟨h.1 _ (by decide), h.2.1 _ (by decide), h.2.2.1 _ (by decide),
    h.2.2.2 _ (by decide)⟩

/-- C3 witness: the theorem applied to the concrete circuits cnopv (zero
PV devices, PV-dependent mode) and cgood (PV present). -/
theorem mode_resolution_override_witness :
    (resolveMode (!cnopv.pvSystems.isEmpty) Mode.max_pv_load_ratio =
      Mode.max_load ∧
     modeOverridden (!cnopv.pvSystems.isEmpty) Mode.max_pv_load_ratio = true ∧
     ∀ msg, get_snapshot_timepoint cnopv Mode.max_pv_load_ratio ≠
       Except.error (SelErr.assertionError msg)) ∧
    (resolveMode (!cgood.pvSystems.isEmpty) Mode.daytime_min_load =
      Mode.daytime_min_load ∧
     modeOverridden (!cgood.pvSystems.isEmpty) Mode.daytime_min_load = false) :=
  ⟨(mode_resolution_override cnopv Mode.max_pv_load_ratio).1 rfl (by decide),
   (mode_resolution_override cgood Mode.daytime_min_load).2.2 (by decide)⟩

/-- C4 witness: the amended theorem applied to the concrete circuit c4c. -/
theorem ratio_inf_selected_when_present_witness :
    ∃ ts2, alookup [("Max Load", t8), ("Max PV to Load Ratio", t8 + 3600),
        ("Max PV minus Load", t8 + 3600), ("Max PV", t8 + 3600),
        ("Min Load", t8 + 3600), ("Min Daytime Load", t8 + 3600)]
        "Max PV to Load Ratio" = some ts2 ∧
      (ts2, PVal.posInf) ∈ betweenTime (ratioCol (aggregate c4c)) :=
  ratio_inf_selected_when_present c4c Mode.max_pv_load_ratio
    ([("Max Load", t8), ("Max PV to Load Ratio", t8 + 3600),
      ("Max PV minus Load", t8 + 3600), ("Max PV", t8 + 3600),
      ("Min Load", t8 + 3600), ("Min Daytime Load", t8 + 3600)], t8 + 3600)
    (t8 + 3600) (by decide) (by decide) (by decide)

/-- C5 witness: the amended theorem applied to the night-only circuit c8c,
whose horizon has no point inside the daily window. -/
theorem empty_window_value_error_witness :
    get_snapshot_timepoint c8c Mode.max_load = Except.error SelErr.valueError :=
  empty_window_value_error c8c Mode.max_load "Max Load" (by decide) (by decide)

/-- C6 witness: the amended theorem applied to the concrete circuits cgood
and cnopv. -/
theorem unsupported_mode_assertion_witness :
    get_snapshot_timepoint cgood Mode.noneMode =
      Except.error (SelErr.assertionError
        "SnapshotTimePointSelectionMode.NONE is not supported") ∧
    get_snapshot_timepoint cnopv Mode.daytime_min_load ≠
      Except.error (SelErr.assertionError "boom") :=
  ⟨(unsupported_mode_assertion cgood Mode.noneMode).1 (by decide) rfl,
   (unsupported_mode_assertion cnopv Mode.daytime_min_load).2 rfl "boom"⟩

/-- C7 witness: the amended theorem applied to the concrete circuit cnopv. -/
theorem zero_pv_criteria_exactly_witness :
    (([("Max Load", t8 + 7200), ("Min Load", t8 + 3600),
       ("Min Daytime Load", t8 + 3600)], t8 + 7200) :
      List (String × Int) × Int).1.map Prod.fst =
      ["Max Load", "Min Load", "Min Daytime Load"] :=
  zero_pv_criteria_exactly cnopv Mode.pv_minus_load _ rfl (by decide)

/-- C9 witness: the amended theorem applied to the concrete circuit cgood. -/
theorem report_key_order_witness :
    (([("Max Load", t8 + 7200), ("Max PV to Load Ratio", t8 + 3600),
       ("Max PV minus Load", t8 + 3600), ("Max PV", t8 + 3600),
       ("Min Load", t8 + 3600), ("Min Daytime Load", t8 + 3600)], t8 + 7200) :
      List (String × Int) × Int).1.map Prod.fst = "Max Load" ::
      (if cgood.pvSystems.isEmpty then []
       else ["Max PV to Load Ratio", "Max PV minus Load", "Max PV"]) ++
      ["Min Load", "Min Daytime Load"] :=
  report_key_order cgood Mode.max_load _ (by decide)

end ConcreteEvaluation
